import Mathlib

/-!
Verification of the `binrates` population-sampling engine against its design
notes.  The Python sources are shallowly embedded: floating-point values are
modelled by real numbers, numpy's process-wide random generator by an explicit
`RNG` state threaded through every draw, and Python exceptions by `Except`
values.  Definitions follow the source modules:

  * `src/binrates/statistics/rvs.py`  — `set_seed`, `sample_from_powerlaw`,
    `sample_from_uniform`
  * `src/binrates/population.py`      — `Population.__init__` and its
    `generate_*` methods, `TargetRegion.__init__` and
    `generate_region_for_test`
  * `src/binrates/utils/kepler.py`    — `P_to_a`, `a_to_P`, `a_to_f`
-/

/-- Python exceptions that the embedded code can raise. -/
inductive Err
  | typeError
  | valueError
  | zeroDivisionError
  | keyError
  deriving DecidableEq, Repr

/-- Model of numpy's process-wide Mersenne-Twister state: an abstract
deterministic generator state.  Only the contract matters for the claims:
`np.random.seed` puts the generator into a state that is a function of the
seed alone, and each draw advances the state deterministically. -/
structure RNG where
  state : Nat
  deriving DecidableEq, Repr

/-- One deterministic step of the modelled generator (a linear congruential
update standing in for the Mersenne twister). -/
def lcg (s : Nat) : Nat := (1103515245 * s + 12345) % 2147483648

/-- Model of `np.random.seed(seed)`: the resulting state depends on the seed
alone, never on the previous state. -/
def mkRNG (seed : Int) : RNG := ⟨seed.natAbs % 2147483648⟩

/-- One uniform variate on `[0, 1)` together with the advanced state. -/
noncomputable def nextUnit (g : RNG) : ℝ × RNG :=
  (((g.state % 2147483648 : Nat) : ℝ) / 2147483648, ⟨lcg g.state⟩)

/-- `n` uniform variates on `[0, 1)`, threading the generator state. -/
noncomputable def unitDraws : Nat → RNG → List ℝ × RNG
  | 0, g => ([], g)
  | n + 1, g =>
    let p := nextUnit g
    let q := unitDraws n p.2
    (p.1 :: q.1, q.2)

/-- `n` draws of `lo + u * (hi - lo)` with `u` uniform on `[0, 1)`: the affine
transform numpy applies for `np.random.uniform(lo, hi, n)`. -/
noncomputable def uniformDraws (lo hi : ℝ) (n : Nat) (g : RNG) :
    List ℝ × RNG :=
  let p := unitDraws n g
  (p.1.map (fun u => lo + u * (hi - lo)), p.2)

/-- Model of `np.random.uniform(lo, hi, N)`: a negative requested size raises
`ValueError` ("negative dimensions are not allowed"). -/
noncomputable def np_random_uniform (lo hi : ℝ) (N : Int) (g : RNG) :
    Except Err (List ℝ × RNG) :=
  if N < 0 then .error .valueError
  else .ok (uniformDraws lo hi N.toNat g)

/-- Model of scipy's `uniform.rvs(size=N)`: `N` standard-uniform variates from
the shared global generator; a negative size raises `ValueError`. -/
noncomputable def uniform_rvs (N : Int) (g : RNG) :
    Except Err (List ℝ × RNG) :=
  if N < 0 then .error .valueError
  else .ok (unitDraws N.toNat g)

/-- `set_seed` from `src/binrates/statistics/rvs.py`: with `seed = None` the
generator state is left untouched; otherwise `np.random.seed(seed)` is
called. -/
def set_seed (seed : Option Int) (g : RNG) : RNG :=
  match seed with
  | none => g
  | some s => mkRNG s

open Classical in
/-- `sample_from_powerlaw` from `src/binrates/statistics/rvs.py` (lines
30-73).  `pdf_i = xi ** (alpha+1)` and `pdf_f = xf ** (alpha+1)` are computed
with real powers, `N` uniforms are drawn on the interval between them, and
each is raised to `1 / (alpha + 1)`.  When `alpha + 1 == 0` the Python
expression `1.0 / (alpha + 1)` raises `ZeroDivisionError` — after the draw,
exactly as in the source.  The `isinstance` guards are subsumed by the Lean
argument types. -/
noncomputable def sample_from_powerlaw (alpha xi xf : ℝ) (N : Int)
    (g : RNG) : Except Err (List ℝ × RNG) :=
  let pdf_i := xi ^ (alpha + 1)
  let pdf_f := xf ^ (alpha + 1)
  match np_random_uniform pdf_i pdf_f N g with
  | .error e => .error e
  | .ok cg =>
    if alpha + 1 = 0 then .error .zeroDivisionError
    else .ok (cg.1.map (fun c => c ^ (1 / (alpha + 1))), cg.2)

/-- `sample_from_uniform` from `src/binrates/statistics/rvs.py` (lines
76-111): draw `u` on `[0, 1]` via scipy, return `xi + u * (xf - xi)`. -/
noncomputable def sample_from_uniform (xi xf : ℝ) (N : Int) (g : RNG) :
    Except Err (List ℝ × RNG) :=
  match uniform_rvs N g with
  | .error e => .error e
  | .ok ug => .ok (ug.1.map (fun u => xi + u * (xf - xi)), ug.2)

lemma unitDraws_length (n : Nat) (g : RNG) :
    (unitDraws n g).1.length = n := by
  induction n generalizing g with
  | zero => simp [unitDraws]
  | succ n ih => simp [unitDraws, ih]

lemma unitDraws_mem {n : Nat} {g : RNG} :
    ∀ u ∈ (unitDraws n g).1, 0 ≤ u ∧ u < 1 := by
  induction n generalizing g with
  | zero => simp [unitDraws]
  | succ n ih =>
    intro u hu
    simp only [unitDraws, List.mem_cons] at hu
    rcases hu with h | h
    · subst h
      simp only [nextUnit]
      constructor
      · positivity
      · rw [div_lt_one (by norm_num)]
        exact_mod_cast Nat.mod_lt _ (by norm_num)
    · exact ih u h

lemma uniformDraws_length (lo hi : ℝ) (n : Nat) (g : RNG) :
    (uniformDraws lo hi n g).1.length = n := by
  simp [uniformDraws, unitDraws_length]

lemma uniformDraws_mem {lo hi : ℝ} {n : Nat} {g : RNG} :
    ∀ x ∈ (uniformDraws lo hi n g).1, lo ⊓ hi ≤ x ∧ x ≤ lo ⊔ hi := by
  intro x hx
  simp only [uniformDraws, List.mem_map] at hx
  obtain ⟨u, hu, rfl⟩ := hx
  obtain ⟨hu0, hu1⟩ := unitDraws_mem u hu
  rcases le_total lo hi with h | h
  · rw [min_eq_left h, max_eq_right h]
    constructor
    · nlinarith
    · nlinarith
  · rw [min_eq_right h, max_eq_left h]
    constructor
    · nlinarith
    · nlinarith

lemma sample_from_powerlaw_ok (alpha xi xf : ℝ) (N : Int) (g : RNG)
    (ha : alpha + 1 ≠ 0) (hN : 0 ≤ N) :
    sample_from_powerlaw alpha xi xf N g =
      .ok ((uniformDraws (xi ^ (alpha + 1)) (xf ^ (alpha + 1)) N.toNat g).1.map
            (fun c => c ^ (1 / (alpha + 1))),
          (uniformDraws (xi ^ (alpha + 1)) (xf ^ (alpha + 1)) N.toNat g).2) := by
  simp [sample_from_powerlaw, np_random_uniform, not_lt.2 hN, ha]

lemma sample_from_uniform_ok (xi xf : ℝ) (N : Int) (g : RNG) (hN : 0 ≤ N) :
    sample_from_uniform xi xf N g =
      .ok ((unitDraws N.toNat g).1.map (fun u => xi + u * (xf - xi)),
          (unitDraws N.toNat g).2) := by
  simp [sample_from_uniform, uniform_rvs, not_lt.2 hN]

/-- C2: for every positive `x_min`, `x_max` and every `n`, calling
`sample_from_powerlaw` with `alpha = -1` fails with an error — the Python
`ZeroDivisionError` from `1.0 / (alpha + 1)` whenever the requested size is
admissible (and a `ValueError` from the negative draw size otherwise) — and
never returns a sequence; in particular
`sample_from_powerlaw(-1.0, 1.0, 150.0, 10)` raises the division domain
error. -/
theorem powerlaw_alpha_neg_one_raises (xi xf : ℝ) (N : Int) (g : RNG)
    (_hxi : 0 < xi) (_hxf : 0 < xf) :
    (∃ e, sample_from_powerlaw (-1) xi xf N g = .error e) ∧
      sample_from_powerlaw (-1) 1 150 10 g = .error .zeroDivisionError := by
  constructor
  · rcases lt_or_le N 0 with h | h
    · exact ⟨.valueError, by simp [sample_from_powerlaw, np_random_uniform, h]⟩
    · refine ⟨.zeroDivisionError, ?_⟩
      simp [sample_from_powerlaw, np_random_uniform, not_lt.2 h]
  · have h10 : ¬((10 : Int) < 0) := by norm_num
    simp [sample_from_powerlaw, np_random_uniform, h10]

/-- C2 witness: the concrete failing call of the claim's scenario. -/
theorem powerlaw_alpha_neg_one_raises_witness :
    (∃ e, sample_from_powerlaw (-1) 1 150 10 ⟨0⟩ = .error e) ∧
      sample_from_powerlaw (-1) 1 150 10 ⟨0⟩ = .error .zeroDivisionError :=
  powerlaw_alpha_neg_one_raises 1 150 10 ⟨0⟩ one_pos (by norm_num)

/-- C5: for every `alpha ≠ -1`, bounds `0 < x_min < x_max` and size `n ≥ 0`,
`sample_from_powerlaw` succeeds with exactly `n` values, each in
`[x_min, x_max]`, and with the empty sequence for `n = 0`. -/
theorem powerlaw_sample_length_and_range (alpha xi xf : ℝ) (N : Int)
    (g : RNG) (hα : alpha ≠ -1) (h0 : 0 < xi) (hlt : xi < xf) (hN : 0 ≤ N) :
    ∃ xs g', sample_from_powerlaw alpha xi xf N g = .ok (xs, g') ∧
      xs.length = N.toNat ∧ (N = 0 → xs = []) ∧
      ∀ x ∈ xs, xi ≤ x ∧ x ≤ xf := by
  have ha : alpha + 1 ≠ 0 := fun h => hα (by linarith)
  refine ⟨_, _, sample_from_powerlaw_ok alpha xi xf N g ha hN, ?_, ?_, ?_⟩
  · simp [uniformDraws_length]
  · intro h
    subst h
    simp [uniformDraws, unitDraws]
  · intro x hx
    simp only [List.mem_map] at hx
    obtain ⟨c, hc, rfl⟩ := hx
    obtain ⟨hcl, hcu⟩ := uniformDraws_mem c hc
    have hpi : (0 : ℝ) < xi ^ (alpha + 1) := Real.rpow_pos_of_pos h0 _
    have hpf : (0 : ℝ) < xf ^ (alpha + 1) :=
      Real.rpow_pos_of_pos (h0.trans hlt) _
    have hxi_id : (xi ^ (alpha + 1)) ^ (1 / (alpha + 1)) = xi := by
      rw [one_div]; exact Real.rpow_rpow_inv h0.le ha
    have hxf_id : (xf ^ (alpha + 1)) ^ (1 / (alpha + 1)) = xf := by
      rw [one_div]; exact Real.rpow_rpow_inv (h0.trans hlt).le ha
    rcases lt_or_le 0 (alpha + 1) with he | he
    · have hle : xi ^ (alpha + 1) ≤ xf ^ (alpha + 1) :=
        Real.rpow_le_rpow h0.le hlt.le he.le
      rw [min_eq_left hle] at hcl
      rw [max_eq_right hle] at hcu
      have hexp : (0 : ℝ) ≤ 1 / (alpha + 1) := by positivity
      constructor
      · calc xi = (xi ^ (alpha + 1)) ^ (1 / (alpha + 1)) := hxi_id.symm
          _ ≤ c ^ (1 / (alpha + 1)) := Real.rpow_le_rpow hpi.le hcl hexp
      · calc c ^ (1 / (alpha + 1))
            ≤ (xf ^ (alpha + 1)) ^ (1 / (alpha + 1)) :=
              Real.rpow_le_rpow (hpi.le.trans hcl) hcu hexp
          _ = xf := hxf_id
    · have he' : alpha + 1 < 0 := lt_of_le_of_ne he ha
      have hle : xf ^ (alpha + 1) ≤ xi ^ (alpha + 1) :=
        Real.rpow_le_rpow_of_nonpos h0 hlt.le he'.le
      rw [min_eq_right hle] at hcl
      rw [max_eq_left hle] at hcu
      have hc0 : (0 : ℝ) < c := lt_of_lt_of_le hpf hcl
      have hexp : 1 / (alpha + 1) ≤ 0 := by
        apply div_nonpos_of_nonneg_of_nonpos <;> linarith
      constructor
      · calc xi = (xi ^ (alpha + 1)) ^ (1 / (alpha + 1)) := hxi_id.symm
          _ ≤ c ^ (1 / (alpha + 1)) :=
            Real.rpow_le_rpow_of_nonpos hc0 hcu hexp
      · calc c ^ (1 / (alpha + 1))
            ≤ (xf ^ (alpha + 1)) ^ (1 / (alpha + 1)) :=
              Real.rpow_le_rpow_of_nonpos hpf hcl hexp
          _ = xf := hxf_id

/-- C5 witness: the Salpeter slope with the default mass bounds at size 0. -/
theorem powerlaw_sample_length_and_range_witness :
    ∃ xs g', sample_from_powerlaw (-2.35) 1 150 0 ⟨0⟩ = .ok (xs, g') ∧
      xs.length = (0 : Int).toNat ∧ ((0 : Int) = 0 → xs = []) ∧
      ∀ x ∈ xs, (1 : ℝ) ≤ x ∧ x ≤ 150 :=
  powerlaw_sample_length_and_range (-2.35) 1 150 0 ⟨0⟩ (by norm_num)
    one_pos (by norm_num) le_rfl

/-! ## Population (`src/binrates/population.py`) -/

/-- Values a configuration dictionary may hold for one sub-key: a string (a
PDF name) or a number.  Strings are modelled as non-numeric, so `float()` on
one raises `ValueError`. -/
inductive CVal
  | str (s : String)
  | num (x : ℝ)

/-- Python `x == "name"` between a dictionary value and a string literal:
true exactly for the equal string (a float never equals a string). -/
def cvalIsStr : CVal → String → Bool
  | .str s, t => s = t
  | .num _, _ => false

/-- A resolved per-field argument dictionary (`args[key]` in
`Population.__init__`), as an insertion-ordered association list, the model
of a Python `dict`. -/
abbrev ArgDict := List (String × CVal)

/-- A user override for one field: sub-key to value, `none` modelling Python
`None`. -/
abbrev OvDict := List (String × Option CVal)

/-- The `Config` mapping handed to `Population.__init__`. -/
abbrev ConfigT := List (String × OvDict)

/-- Python `d[k]` read access: the first binding, `KeyError` when absent. -/
def dictGet (d : ArgDict) (k : String) : Except Err CVal :=
  match d.find? (fun p => p.1 = k) with
  | some p => .ok p.2
  | none => .error .keyError

/-- Python `d[k] = v` on a `dict`: replace in place when the key exists,
append otherwise. -/
def setKey (d : ArgDict) (k : String) (v : CVal) : ArgDict :=
  if d.any (fun p => p.1 = k) then
    d.map (fun p => if p.1 = k then (k, v) else p)
  else d ++ [(k, v)]

/-- Membership test `subkey in Config[key]` (over the override's keys). -/
def ovHasKey (ov : OvDict) (k : String) : Bool :=
  ov.any (fun p => p.1 = k)

/-- The inner loop of `Population.__init__` for one recognized field
(lines 82-98): for each `(subkey, subval)` of the override, when `subkey` is
a key of the override (always true) and `subval is not None`, assign
`args[key][subkey] = subval`. -/
def mergeField (dflt : ArgDict) (ov : OvDict) : ArgDict :=
  ov.foldl
    (fun acc p =>
      if ovHasKey ov p.1 then
        match p.2 with
        | some v => setKey acc p.1 v
        | none => acc
      else acc)
    dflt

/-- The three per-field argument dictionaries. -/
structure ArgsT where
  primaryArgs : ArgDict
  massRatioArgs : ArgDict
  periodArgs : ArgDict

/-- The built-in `args` defaults of `Population.__init__` (lines 62-78). -/
noncomputable def defaultArgs : ArgsT where
  primaryArgs :=
    [("pdf", .str "Salpeter"), ("min_mass", .num 1), ("max_mass", .num 150)]
  massRatioArgs :=
    [("pdf", .str "Uniform"), ("min_mass_ratio", .num 1e-2),
     ("max_mass_ratio", .num 1)]
  periodArgs :=
    [("pdf", .str "Sana"), ("min_period", .num 1.412537545),
     ("max_period", .num 316227.766)]

/-- One iteration of the merging loop of `Population.__init__` (lines
80-98): a key equal to one of the three recognized field names merges its
override into that field's arguments, any other key falls through all three
`if` statements. -/
noncomputable def resolveStep (args : ArgsT) (p : String × OvDict) : ArgsT :=
  let args :=
    if p.1 = "Primary" then
      { args with primaryArgs := mergeField args.primaryArgs p.2 }
    else args
  let args :=
    if p.1 = "MassRatio" then
      { args with massRatioArgs := mergeField args.massRatioArgs p.2 }
    else args
  if p.1 = "OrbitalPeriod" then
    { args with periodArgs := mergeField args.periodArgs p.2 }
  else args

/-- The merging loop of `Population.__init__` (lines 80-98): iterate
`resolveStep` over the `Config` items, starting from the defaults. -/
noncomputable def resolveArgs (Config : ConfigT) : ArgsT :=
  Config.foldl resolveStep defaultArgs

/-- Python `float(v)`: identity on numbers; on our (non-numeric) strings it
raises `ValueError`. -/
def pyFloat : CVal → Except Err ℝ
  | .num x => .ok x
  | .str _ => .error .valueError

/-- An argument to `Population(number=..., seed=...)`: an int, a float, or a
non-numeric string such as `"abc"` (the only kind of string any claim
exercises — a numeric string would parse). -/
inductive NumArg
  | i (n : Int)
  | f (x : ℚ)
  | s (v : String)

/-- Python `int(x)`: identity on ints, truncation toward zero on floats,
`ValueError` on a non-numeric string. -/
def pyInt : NumArg → Except Err Int
  | .i n => .ok n
  | .f x => .ok (if 0 ≤ x then ⌊x⌋ else -⌊-x⌋)
  | .s _ => .error .valueError

/-- `Population.generate_primaries` (lines 114-126): read and coerce the mass
bounds, then sample a Salpeter power law of slope `-2.35`, or yield
`None` (`Option.none`) for an unrecognized `pdf` name. -/
noncomputable def generate_primaries (number : Int) (args : ArgDict)
    (g : RNG) : Except Err (Option (List ℝ) × RNG) := do
  let min_mass ← pyFloat (← dictGet args "min_mass")
  let max_mass ← pyFloat (← dictGet args "max_mass")
  let pdf ← dictGet args "pdf"
  if cvalIsStr pdf "Salpeter" then
    let mg ← sample_from_powerlaw (-2.35) min_mass max_mass number g
    return (some mg.1, mg.2)
  else
    return (none, g)

/-- `Population.generate_companions` (lines 128-144): uniform mass ratios, or
`None` for an unrecognized `pdf` name. -/
noncomputable def generate_companions (number : Int) (args : ArgDict)
    (g : RNG) : Except Err (Option (List ℝ) × RNG) := do
  let min_mass_ratio ← pyFloat (← dictGet args "min_mass_ratio")
  let max_mass_ratio ← pyFloat (← dictGet args "max_mass_ratio")
  let pdf ← dictGet args "pdf"
  if cvalIsStr pdf "Uniform" then
    let qg ← sample_from_uniform min_mass_ratio max_mass_ratio number g
    return (some qg.1, qg.2)
  else
    return (none, g)

/-- `Population.generate_periods` (lines 146-161): log10-transform the period
bounds, sample a Sana power law of slope `-0.55` in log space and exponentiate
back (`p = 10 ** logp`), or yield `None` for an unrecognized `pdf` name. -/
noncomputable def generate_periods (number : Int) (args : ArgDict)
    (g : RNG) : Except Err (Option (List ℝ) × RNG) := do
  let min_log_period := Real.logb 10 (← pyFloat (← dictGet args "min_period"))
  let max_log_period := Real.logb 10 (← pyFloat (← dictGet args "max_period"))
  let pdf ← dictGet args "pdf"
  if cvalIsStr pdf "Sana" then
    let lg ← sample_from_powerlaw (-0.55) min_log_period max_log_period
      number g
    return (some (lg.1.map (fun t => (10 : ℝ) ^ t)), lg.2)
  else
    return (none, g)

/-- The number of columns `np.vstack` sees for one stacked input after
`np.atleast_2d`: a `None` scalar becomes a 1x1 block, a length-`n` sample
row a 1x`n` block. -/
def vstackCols : Option (List ℝ) → Nat
  | none => 1
  | some xs => xs.length

/-- Row `i` of one stacked input (a `None` block contributes `None`). -/
def vstackEntry (o : Option (List ℝ)) (i : Nat) : Option ℝ :=
  o.bind (fun xs => xs.get? i)

/-- `np.vstack((a, b, c)).transpose()` (lines 110-112): succeeds only when
the three blocks have the same column count, else `ValueError` ("all the
input array dimensions ... must match exactly"); on success row `i` of the
transpose holds the `i`-th entry of each block. -/
def vstack3T (a b c : Option (List ℝ)) :
    Except Err (List (Option ℝ × Option ℝ × Option ℝ)) :=
  if vstackCols a = vstackCols b ∧ vstackCols a = vstackCols c then
    .ok ((List.range (vstackCols a)).map
      (fun i => (vstackEntry a i, vstackEntry b i, vstackEntry c i)))
  else .error .valueError

/-- The documented fallback `Population.DEFAULT_BINARIESNO`. -/
def DEFAULT_BINARIESNO : Int := 100000

/-- The constructed `Population` object: attributes set by `__init__`. -/
structure Population where
  number : Int
  seed : Option Int
  primaries : Option (List ℝ)
  mass_ratios : Option (List ℝ)
  periods : Option (List ℝ)
  population_array : List (Option ℝ × Option ℝ × Option ℝ)

/-- Lines 43-49 of `Population.__init__`: `number = int(number)` guarded by
`except ValueError`, which falls back to `DEFAULT_BINARIESNO`. -/
def numberFromArg (number0 : NumArg) : Int :=
  match pyInt number0 with
  | .ok n => n
  | .error _ => DEFAULT_BINARIESNO

/-- Lines 51-58 of `Population.__init__`: `seed = int(seed)` when a seed was
given, guarded by `except ValueError`, which falls back to `None`. -/
def seedFromArg (seed0 : Option NumArg) : Option Int :=
  match seed0 with
  | none => none
  | some s0 =>
    match pyInt s0 with
    | .ok s => some s
    | .error _ => none

/-- `Population.__init__` (lines 37-112): coerce `number` and `seed`, merge
`Config` over the defaults, seed the generator once iff a seed is present
(`set_seed` with `None` leaves the state untouched, matching the guarded
call), sample the three fields in order Primary, MassRatio, OrbitalPeriod,
then stack the three results with `np.vstack(...).transpose()`. -/
noncomputable def populationInit (number0 : NumArg) (seed0 : Option NumArg)
    (Config : ConfigT) (g : RNG) : Except Err Population :=
  (generate_primaries (numberFromArg number0) (resolveArgs Config).primaryArgs
      (set_seed (seedFromArg seed0) g)).bind (fun pg =>
    (generate_companions (numberFromArg number0)
        (resolveArgs Config).massRatioArgs pg.2).bind (fun qg =>
      (generate_periods (numberFromArg number0)
          (resolveArgs Config).periodArgs qg.2).bind (fun eg =>
        (vstack3T pg.1 qg.1 eg.1).bind (fun arr =>
          .ok { number := numberFromArg number0, seed := seedFromArg seed0,
                primaries := pg.1, mass_ratios := qg.1, periods := eg.1,
                population_array := arr }))))

lemma resolveArgs_nil : resolveArgs [] = defaultArgs := rfl

lemma generate_primaries_default_eq (number : Int) (g : RNG) :
    generate_primaries number defaultArgs.primaryArgs g =
      (sample_from_powerlaw (-2.35) 1 150 number g).bind
        (fun mg => .ok (some mg.1, mg.2)) := rfl

lemma generate_companions_default_eq (number : Int) (g : RNG) :
    generate_companions number defaultArgs.massRatioArgs g =
      (sample_from_uniform 1e-2 1 number g).bind
        (fun qg => .ok (some qg.1, qg.2)) := rfl

lemma generate_periods_default_eq (number : Int) (g : RNG) :
    generate_periods number defaultArgs.periodArgs g =
      (sample_from_powerlaw (-0.55) (Real.logb 10 1.412537545)
          (Real.logb 10 316227.766) number g).bind
        (fun lg => .ok (some (lg.1.map (fun t => (10 : ℝ) ^ t)), lg.2)) := rfl

lemma populationInit_defaults_ok (number0 : NumArg) (seed0 : Option NumArg)
    (g : RNG) (number : Int) (hco : numberFromArg number0 = number)
    (hN : 0 ≤ number) :
    ∃ pop, populationInit number0 seed0 [] g = .ok pop ∧
      pop.number = number ∧
      pop.primaries.map List.length = some number.toNat ∧
      pop.mass_ratios.map List.length = some number.toNat ∧
      pop.periods.map List.length = some number.toNat := by
  simp only [populationInit, resolveArgs_nil, hco]
  rw [generate_primaries_default_eq,
    sample_from_powerlaw_ok _ _ _ _ _ (by norm_num) hN]
  simp only [Except.bind]
  rw [generate_companions_default_eq, sample_from_uniform_ok _ _ _ _ hN]
  simp only [Except.bind]
  rw [generate_periods_default_eq,
    sample_from_powerlaw_ok _ _ _ _ _ (by norm_num) hN]
  simp only [Except.bind]
  rw [vstack3T, if_pos
    (by constructor <;> simp [vstackCols, uniformDraws_length, unitDraws_length])]
  simp only [Except.bind]
  exact ⟨_, rfl, rfl, by simp [uniformDraws_length], by simp [unitDraws_length],
    by simp [uniformDraws_length]⟩

/-- C3 counterexample: with `count = -5` (which `int()` coerces successfully,
so no fallback to 100000 happens) and seed 1, `Population` construction does
raise: the `ValueError` from the sampler's negative draw size. -/
theorem population_negative_count_raises :
    populationInit (.i (-5)) (some (.i 1)) [] ⟨0⟩ = .error .valueError := rfl

/-- C3 as amended: `-5` is integer-coercible, so the documented
coercion-failure fallback is never triggered and construction raises a
`ValueError` from the sampler instead of producing sequences; the fallback to
the default count 100000 (reported, not raised) happens only when coercion
itself fails, e.g. for a non-numeric string, in which case the generated
sequences have length 100000. -/
theorem population_negative_count_amended :
    pyInt (.i (-5)) = .ok (-5) ∧
      populationInit (.i (-5)) (some (.i 1)) [] ⟨0⟩ = .error .valueError ∧
      pyInt (.s "abc") = .error .valueError ∧
      ∃ pop, populationInit (.s "abc") (some (.i 1)) [] ⟨0⟩ = .ok pop ∧
        pop.number = 100000 ∧
        pop.primaries.map List.length = some 100000 ∧
        pop.mass_ratios.map List.length = some 100000 ∧
        pop.periods.map List.length = some 100000 := by
  refine ⟨rfl, rfl, rfl, ?_⟩
  have h := populationInit_defaults_ok (.s "abc") (some (.i 1)) ⟨0⟩ 100000
    rfl (by norm_num)
  obtain ⟨pop, h1, h2, h3, h4, h5⟩ := h
  exact ⟨pop, h1, h2, h3, h4, h5⟩

/-- C4: with an explicit integer seed, the constructed population is a
function of `count`, seed and the override mapping alone — the incoming
global generator state `g` is discarded by the one-shot reseeding, so two
constructions with identical arguments yield identical primary-mass,
mass-ratio and orbital-period sequences (and identical stacked arrays). -/
theorem population_seeded_deterministic (number0 : NumArg) (s : Int)
    (Config : ConfigT) (g g' : RNG) :
    populationInit number0 (some (.i s)) Config g =
      populationInit number0 (some (.i s)) Config g' := rfl

/-- C6: with no field overrides the constructor samples Primary from the
power law of slope `-2.35` on `[1, 150]`, MassRatio uniformly on
`[1e-2, 1]`, and OrbitalPeriod by drawing `log10`-periods from the power law
of slope `-0.55` between `log10(1.412537545)` and `log10(316227.766)` and
exponentiating back (`period = 10 ** logp`), the three sampler calls chained
in that order through the generator state. -/
theorem population_default_pdfs (n : Nat) (g : RNG) (xs₁ xs₂ xs₃ : List ℝ)
    (g₁ g₂ g₃ : RNG)
    (h₁ : sample_from_powerlaw (-2.35) 1 150 (n : Int) g = .ok (xs₁, g₁))
    (h₂ : sample_from_uniform 1e-2 1 (n : Int) g₁ = .ok (xs₂, g₂))
    (h₃ : sample_from_powerlaw (-0.55) (Real.logb 10 1.412537545)
        (Real.logb 10 316227.766) (n : Int) g₂ = .ok (xs₃, g₃)) :
    ∃ pop, populationInit (.i (n : Int)) none [] g = .ok pop ∧
      pop.primaries = some xs₁ ∧ pop.mass_ratios = some xs₂ ∧
      pop.periods = some (xs₃.map (fun t => (10 : ℝ) ^ t)) := by
  have hN : (0 : Int) ≤ (n : Int) := Int.natCast_nonneg n
  have e₁ := sample_from_powerlaw_ok (-2.35) 1 150 (n : Int) g
    (by norm_num) hN
  have e₂ := sample_from_uniform_ok 1e-2 1 (n : Int) g₁ hN
  have e₃ := sample_from_powerlaw_ok (-0.55) (Real.logb 10 1.412537545)
    (Real.logb 10 316227.766) (n : Int) g₂ (by norm_num) hN
  have hv₁ : xs₁ = _ := congrArg Prod.fst (Except.ok.inj (h₁.symm.trans e₁))
  have hv₂ : xs₂ = _ := congrArg Prod.fst (Except.ok.inj (h₂.symm.trans e₂))
  have hv₃ : xs₃ = _ := congrArg Prod.fst (Except.ok.inj (h₃.symm.trans e₃))
  have L₁ : xs₁.length = n := by simp [hv₁, uniformDraws_length]
  have L₂ : xs₂.length = n := by simp [hv₂, unitDraws_length]
  have L₃ : xs₃.length = n := by simp [hv₃, uniformDraws_length]
  have hg0 : set_seed (seedFromArg none) g = g := rfl
  simp only [populationInit, resolveArgs_nil, hg0]
  have hnum : numberFromArg (.i (n : Int)) = (n : Int) := rfl
  rw [hnum, generate_primaries_default_eq, h₁]
  simp only [Except.bind]
  rw [generate_companions_default_eq, h₂]
  simp only [Except.bind]
  rw [generate_periods_default_eq, h₃]
  simp only [Except.bind]
  rw [vstack3T, if_pos
    (by constructor <;> simp [vstackCols, L₁, L₂, L₃])]
  simp only [Except.bind]
  exact ⟨_, rfl, rfl, rfl, rfl⟩

/-- C6 witness: the empty population (`count = 0`) realizes the three sampler
equations concretely. -/
theorem population_default_pdfs_witness :
    ∃ pop, populationInit (.i ((0 : Nat) : Int)) none [] ⟨0⟩ = .ok pop ∧
      pop.primaries = some [] ∧ pop.mass_ratios = some [] ∧
      pop.periods = some (([] : List ℝ).map (fun t => (10 : ℝ) ^ t)) :=
  population_default_pdfs 0 ⟨0⟩ [] [] [] ⟨0⟩ ⟨0⟩ ⟨0⟩
    (by rw [sample_from_powerlaw_ok _ _ _ _ _ (by norm_num)
          (Int.natCast_nonneg 0)]
        simp [uniformDraws, unitDraws])
    (by rw [sample_from_uniform_ok _ _ _ _ (Int.natCast_nonneg 0)]
        simp [unitDraws])
    (by rw [sample_from_powerlaw_ok _ _ _ _ _ (by norm_num)
          (Int.natCast_nonneg 0)]
        simp [uniformDraws, unitDraws])

/-- A configuration whose Primary `pdf` name is unrecognized. -/
def unknownPdfConfig : ConfigT := [("Primary", [("pdf", some (.str "Foo"))])]

/-- C1 (the code's actual behaviour at the claim's scenario): with an
unrecognized Primary PDF and `count = 2`, the sampling step itself is
degraded-but-non-fatal — `generate_primaries` returns `None` without
consuming the generator — but `Population` construction as a whole then
fails: `np.vstack` raises `ValueError` because the 1x1 `None` block cannot
be stacked with the 1x2 sampled rows.  The claimed non-fatal completion of
the generation call therefore does not hold (except when `count = 1`). -/
theorem population_unknown_pdf_crashes :
    generate_primaries 2 (resolveArgs unknownPdfConfig).primaryArgs ⟨0⟩ =
        .ok (none, ⟨0⟩) ∧
      populationInit (.i 2) none unknownPdfConfig ⟨0⟩ =
        .error .valueError := by
  constructor
  · rfl
  · have h1 : generate_primaries 2
        (resolveArgs unknownPdfConfig).primaryArgs
        (set_seed (seedFromArg none) ⟨0⟩) = .ok (none, ⟨0⟩) := rfl
    have hm : (resolveArgs unknownPdfConfig).massRatioArgs =
        defaultArgs.massRatioArgs := rfl
    have hp : (resolveArgs unknownPdfConfig).periodArgs =
        defaultArgs.periodArgs := rfl
    have hn2 : numberFromArg (.i 2) = 2 := rfl
    simp only [populationInit, hn2, hm, hp]
    rw [h1]
    simp only [Except.bind]
    rw [generate_companions_default_eq,
      sample_from_uniform_ok _ _ _ _ (by norm_num)]
    simp only [Except.bind]
    rw [generate_periods_default_eq,
      sample_from_powerlaw_ok _ _ _ _ _ (by norm_num) (by norm_num)]
    simp only [Except.bind]
    rw [vstack3T, if_neg (by simp [vstackCols, unitDraws_length,
      uniformDraws_length])]

/-! ## Configuration-merge semantics (claim C7) -/

/-- The three recognized top-level field keys. -/
def fields3 : List String := ["Primary", "MassRatio", "OrbitalPeriod"]

/-- The resolved argument dictionary of one field. -/
def argsField (a : ArgsT) (f : String) : ArgDict :=
  if f = "Primary" then a.primaryArgs
  else if f = "MassRatio" then a.massRatioArgs
  else a.periodArgs

/-- The built-in default dictionary of one field. -/
noncomputable def defaultField (f : String) : ArgDict :=
  argsField defaultArgs f

/-- Lookup of a top-level field override in a `Config` mapping (first
binding wins, as in a Python `dict`). -/
def cfgLookup : ConfigT → String → Option OvDict
  | [], _ => none
  | p :: t, f => if p.1 = f then some p.2 else cfgLookup t f

/-- Lookup of a sub-key in an override dictionary. -/
def ovLookup : OvDict → String → Option (Option CVal)
  | [], _ => none
  | p :: t, k => if p.1 = k then some p.2 else ovLookup t k

/-- Lookup of a sub-key in a resolved argument dictionary. -/
def dictLookup : ArgDict → String → Option CVal
  | [], _ => none
  | p :: t, k => if p.1 = k then some p.2 else dictLookup t k

/-- Well-formedness inherited from Python `dict`: keys are unique at the top
level and within each field override. -/
def WFConfig (cfg : ConfigT) : Prop :=
  (cfg.map Prod.fst).Nodup ∧ ∀ p ∈ cfg, (p.2.map Prod.fst).Nodup

lemma dictLookup_map_repl_self (d : ArgDict) (k : String) (v : CVal)
    (hany : d.any (fun p => p.1 = k)) :
    dictLookup (d.map (fun p => if p.1 = k then (k, v) else p)) k =
      some v := by
  induction d with
  | nil => cases hany
  | cons a t ih =>
    by_cases hak : a.1 = k
    · simp [dictLookup, hak]
    · simp only [List.any_cons, Bool.or_eq_true, decide_eq_true_eq] at hany
      rcases hany with h | h
      · exact absurd h hak
      · simp only [List.map_cons, if_neg hak]
        rw [dictLookup, if_neg hak]
        exact ih (by simpa using h)

lemma dictLookup_map_repl_other (d : ArgDict) (k k' : String) (v : CVal)
    (hne : k' ≠ k) :
    dictLookup (d.map (fun p => if p.1 = k then (k, v) else p)) k' =
      dictLookup d k' := by
  induction d with
  | nil => rfl
  | cons a t ih =>
    by_cases hak : a.1 = k
    · simp only [List.map_cons, if_pos hak]
      rw [dictLookup, if_neg (Ne.symm hne), dictLookup,
        if_neg (hak ▸ (Ne.symm hne) : ¬ a.1 = k')]
      exact ih
    · simp only [List.map_cons, if_neg hak]
      by_cases h' : a.1 = k'
      · rw [dictLookup, if_pos h', dictLookup, if_pos h']
      · rw [dictLookup, if_neg h', dictLookup, if_neg h']
        exact ih

lemma dictLookup_append_single_self (d : ArgDict) (k : String) (v : CVal)
    (hany : ¬ d.any (fun p => p.1 = k)) :
    dictLookup (d ++ [(k, v)]) k = some v := by
  induction d with
  | nil => simp [dictLookup]
  | cons a t ih =>
    simp only [List.any_cons, Bool.or_eq_true, decide_eq_true_eq,
      not_or] at hany
    rw [List.cons_append, dictLookup, if_neg hany.1]
    exact ih (by simpa using hany.2)

lemma dictLookup_append_single_other (d : ArgDict) (k k' : String)
    (v : CVal) (hne : k' ≠ k) :
    dictLookup (d ++ [(k, v)]) k' = dictLookup d k' := by
  induction d with
  | nil => simp [dictLookup, Ne.symm hne]
  | cons a t ih =>
    by_cases h' : a.1 = k'
    · rw [List.cons_append, dictLookup, if_pos h', dictLookup, if_pos h']
    · rw [List.cons_append, dictLookup, if_neg h', dictLookup, if_neg h']
      exact ih

/-- Python dictionary assignment, seen through lookups: after
`setKey d k v`, key `k` maps to `v` and every other key is unchanged. -/
lemma dictLookup_setKey (d : ArgDict) (k k' : String) (v : CVal) :
    dictLookup (setKey d k v) k' =
      if k' = k then some v else dictLookup d k' := by
  rw [setKey]
  by_cases hany : d.any (fun p => p.1 = k)
  · rw [if_pos hany]
    by_cases h' : k' = k
    · subst h'
      rw [if_pos rfl]
      exact dictLookup_map_repl_self d k' v hany
    · rw [if_neg h']
      exact dictLookup_map_repl_other d k k' v h'
  · rw [if_neg hany]
    by_cases h' : k' = k
    · subst h'
      rw [if_pos rfl]
      exact dictLookup_append_single_self d k' v hany
    · rw [if_neg h']
      exact dictLookup_append_single_other d k k' v h'

/-- The body of one `args[key][subkey] = subval` iteration once the (always
true) `subkey in Config[key]` test has passed. -/
def plainStep (acc : ArgDict) (p : String × Option CVal) : ArgDict :=
  match p.2 with
  | some v => setKey acc p.1 v
  | none => acc

lemma mergeField_aux (ov : OvDict) :
    ∀ (l : OvDict) (acc : ArgDict), (∀ p ∈ l, ovHasKey ov p.1) →
      l.foldl
        (fun acc p =>
          if ovHasKey ov p.1 then
            match p.2 with
            | some v => setKey acc p.1 v
            | none => acc
          else acc)
        acc = l.foldl plainStep acc := by
  intro l
  induction l with
  | nil => intro acc _; rfl
  | cons a t ih =>
    intro acc h
    rw [List.foldl_cons, List.foldl_cons, if_pos (h a (List.mem_cons_self a t))]
    exact ih _ (fun p hp => h p (List.mem_cons_of_mem a hp))

/-- The `subkey in Config[key]` membership test is a tautology while
iterating `Config[key]` itself, so the merge loop is the plain
assign-non-null fold. -/
lemma mergeField_eq_foldl (dflt : ArgDict) (ov : OvDict) :
    mergeField dflt ov = ov.foldl plainStep dflt := by
  rw [mergeField]
  exact mergeField_aux ov ov dflt
    (fun p hp => List.any_eq_true.2 ⟨p, hp, by simp⟩)

lemma foldl_plain_lookup_of_no_key (k : String) :
    ∀ (l : OvDict) (acc : ArgDict), (∀ p ∈ l, p.1 ≠ k) →
      dictLookup (l.foldl plainStep acc) k = dictLookup acc k := by
  intro l
  induction l with
  | nil => intro acc _; rfl
  | cons a t ih =>
    intro acc h
    rw [List.foldl_cons]
    rw [ih _ (fun p hp => h p (List.mem_cons_of_mem a hp))]
    match ha : a.2 with
    | some v =>
      rw [plainStep, ha, dictLookup_setKey,
        if_neg (fun hk => h a (List.mem_cons_self a t) hk.symm)]
    | none => rw [plainStep, ha]

lemma foldl_plain_lookup_some (k : String) (v : CVal) :
    ∀ (ov : OvDict) (dflt : ArgDict), (ov.map Prod.fst).Nodup →
      ovLookup ov k = some (some v) →
      dictLookup (ov.foldl plainStep dflt) k = some v := by
  intro ov
  induction ov with
  | nil => intro dflt _ h; cases h
  | cons a t ih =>
    intro dflt hnd h
    rw [List.foldl_cons]
    by_cases hak : a.1 = k
    · rw [ovLookup, if_pos hak] at h
      have hv : a.2 = some v := by injection h
      have hnk : ∀ p ∈ t, p.1 ≠ k := by
        intro p hp hpk
        simp only [List.map_cons, List.nodup_cons] at hnd
        exact hnd.1 (hak ▸ hpk ▸ List.mem_map_of_mem Prod.fst hp)
      rw [foldl_plain_lookup_of_no_key k t _ hnk, plainStep, hv,
        dictLookup_setKey, if_pos (Eq.symm hak)]
    · rw [ovLookup, if_neg hak] at h
      simp only [List.map_cons, List.nodup_cons] at hnd
      exact ih _ hnd.2 h

lemma foldl_plain_lookup_none_val (k : String) :
    ∀ (ov : OvDict) (dflt : ArgDict), (ov.map Prod.fst).Nodup →
      ovLookup ov k = some none →
      dictLookup (ov.foldl plainStep dflt) k = dictLookup dflt k := by
  intro ov
  induction ov with
  | nil => intro dflt _ h; cases h
  | cons a t ih =>
    intro dflt hnd h
    rw [List.foldl_cons]
    by_cases hak : a.1 = k
    · rw [ovLookup, if_pos hak] at h
      have hv : a.2 = none := by injection h
      have hnk : ∀ p ∈ t, p.1 ≠ k := by
        intro p hp hpk
        simp only [List.map_cons, List.nodup_cons] at hnd
        exact hnd.1 (hak ▸ hpk ▸ List.mem_map_of_mem Prod.fst hp)
      rw [foldl_plain_lookup_of_no_key k t _ hnk, plainStep, hv]
    · rw [ovLookup, if_neg hak] at h
      simp only [List.map_cons, List.nodup_cons] at hnd
      rw [ih _ hnd.2 h]
      match ha : a.2 with
      | some v =>
        rw [plainStep, ha, dictLookup_setKey, if_neg (fun hk => hak hk.symm)]
      | none => rw [plainStep, ha]

/-- What the per-field merging loop does to one field, in isolation. -/
noncomputable def fieldFold (f : String) (cfg : ConfigT) (d : ArgDict) :
    ArgDict :=
  cfg.foldl (fun d p => if p.1 = f then mergeField d p.2 else d) d

lemma resolveStep_primaryArgs (a : ArgsT) (p : String × OvDict) :
    (resolveStep a p).primaryArgs =
      if p.1 = "Primary" then mergeField a.primaryArgs p.2
      else a.primaryArgs := by
  simp only [resolveStep, apply_ite ArgsT.primaryArgs]
  simp

lemma resolveStep_massRatioArgs (a : ArgsT) (p : String × OvDict) :
    (resolveStep a p).massRatioArgs =
      if p.1 = "MassRatio" then mergeField a.massRatioArgs p.2
      else a.massRatioArgs := by
  simp only [resolveStep, apply_ite ArgsT.massRatioArgs]
  by_cases h1 : p.1 = "Primary" <;> simp [h1]

lemma resolveStep_periodArgs (a : ArgsT) (p : String × OvDict) :
    (resolveStep a p).periodArgs =
      if p.1 = "OrbitalPeriod" then mergeField a.periodArgs p.2
      else a.periodArgs := by
  simp only [resolveStep, apply_ite ArgsT.periodArgs]
  by_cases h1 : p.1 = "Primary" <;> by_cases h2 : p.1 = "MassRatio" <;>
    simp [h1, h2]

lemma foldl_resolveStep_primary :
    ∀ (cfg : ConfigT) (a : ArgsT),
      (cfg.foldl resolveStep a).primaryArgs =
        fieldFold "Primary" cfg a.primaryArgs := by
  intro cfg
  induction cfg with
  | nil => intro a; rfl
  | cons p t ih =>
    intro a
    rw [List.foldl_cons, ih, resolveStep_primaryArgs]
    rfl

lemma foldl_resolveStep_massRatio :
    ∀ (cfg : ConfigT) (a : ArgsT),
      (cfg.foldl resolveStep a).massRatioArgs =
        fieldFold "MassRatio" cfg a.massRatioArgs := by
  intro cfg
  induction cfg with
  | nil => intro a; rfl
  | cons p t ih =>
    intro a
    rw [List.foldl_cons, ih, resolveStep_massRatioArgs]
    rfl

lemma foldl_resolveStep_period :
    ∀ (cfg : ConfigT) (a : ArgsT),
      (cfg.foldl resolveStep a).periodArgs =
        fieldFold "OrbitalPeriod" cfg a.periodArgs := by
  intro cfg
  induction cfg with
  | nil => intro a; rfl
  | cons p t ih =>
    intro a
    rw [List.foldl_cons, ih, resolveStep_periodArgs]
    rfl

lemma fieldFold_of_not_mem (f : String) :
    ∀ (cfg : ConfigT) (d : ArgDict), (∀ p ∈ cfg, p.1 ≠ f) →
      fieldFold f cfg d = d := by
  intro cfg
  induction cfg with
  | nil => intro d _; rfl
  | cons a t ih =>
    intro d h
    rw [fieldFold, List.foldl_cons, if_neg (h a (List.mem_cons_self a t))]
    exact ih d (fun p hp => h p (List.mem_cons_of_mem a hp))

lemma fieldFold_no_key (f : String) :
    ∀ (cfg : ConfigT) (d : ArgDict), cfgLookup cfg f = none →
      fieldFold f cfg d = d := by
  intro cfg
  induction cfg with
  | nil => intro d _; rfl
  | cons a t ih =>
    intro d h
    rw [cfgLookup] at h
    by_cases hak : a.1 = f
    · rw [if_pos hak] at h; cases h
    · rw [if_neg hak] at h
      rw [fieldFold, List.foldl_cons, if_neg hak]
      exact ih d h

lemma fieldFold_lookup (f : String) :
    ∀ (cfg : ConfigT) (d : ArgDict) (ov : OvDict),
      (cfg.map Prod.fst).Nodup → cfgLookup cfg f = some ov →
      fieldFold f cfg d = mergeField d ov := by
  intro cfg
  induction cfg with
  | nil => intro d ov _ h; cases h
  | cons a t ih =>
    intro d ov hnd h
    rw [cfgLookup] at h
    simp only [List.map_cons, List.nodup_cons] at hnd
    by_cases hak : a.1 = f
    · rw [if_pos hak] at h
      have hov : a.2 = ov := by injection h
      rw [fieldFold, List.foldl_cons, if_pos hak, hov]
      exact fieldFold_of_not_mem f t _
        (fun p hp hpf => hnd.1 (hak ▸ hpf ▸ List.mem_map_of_mem Prod.fst hp))
    · rw [if_neg hak] at h
      rw [fieldFold, List.foldl_cons, if_neg hak]
      exact ih d ov hnd.2 h

lemma cfgLookup_mem :
    ∀ (cfg : ConfigT) (f : String) (ov : OvDict),
      cfgLookup cfg f = some ov → (f, ov) ∈ cfg := by
  intro cfg
  induction cfg with
  | nil => intro f ov h; cases h
  | cons a t ih =>
    intro f ov h
    rw [cfgLookup] at h
    by_cases hak : a.1 = f
    · have hov : a.2 = ov := by rw [if_pos hak] at h; injection h
      have he : (f, ov) = a := by rw [← hak, ← hov]
      exact List.mem_cons.2 (Or.inl he)
    · rw [if_neg hak] at h
      exact List.mem_cons_of_mem a (ih f ov h)

/-- The three resolved fields, through `argsField`. -/
lemma argsField_resolveArgs (cfg : ConfigT) (f : String) (hf : f ∈ fields3) :
    argsField (resolveArgs cfg) f = fieldFold f cfg (defaultField f) := by
  rw [fields3] at hf
  rcases List.mem_cons.1 hf with h | hf
  · subst h
    rw [show argsField (resolveArgs cfg) "Primary" =
        (resolveArgs cfg).primaryArgs from rfl, resolveArgs,
      foldl_resolveStep_primary]
    rfl
  rcases List.mem_cons.1 hf with h | hf
  · subst h
    rw [show argsField (resolveArgs cfg) "MassRatio" =
        (resolveArgs cfg).massRatioArgs from rfl, resolveArgs,
      foldl_resolveStep_massRatio]
    rfl
  rcases List.mem_cons.1 hf with h | hf
  · subst h
    rw [show argsField (resolveArgs cfg) "OrbitalPeriod" =
        (resolveArgs cfg).periodArgs from rfl, resolveArgs,
      foldl_resolveStep_period]
    rfl
  cases hf

lemma fieldFold_filter (f : String) (hf : f ∈ fields3) :
    ∀ (cfg : ConfigT) (d : ArgDict),
      fieldFold f cfg d =
        fieldFold f (cfg.filter (fun p => decide (p.1 ∈ fields3))) d := by
  intro cfg
  induction cfg with
  | nil => intro d; rfl
  | cons a t ih =>
    intro d
    by_cases haf : a.1 = f
    · rw [List.filter_cons_of_pos (by simp [haf, hf]), fieldFold,
        List.foldl_cons, if_pos haf, fieldFold, List.foldl_cons, if_pos haf]
      exact ih _
    · by_cases hmem : a.1 ∈ fields3
      · rw [List.filter_cons_of_pos (by simp [hmem]), fieldFold,
          List.foldl_cons, if_neg haf, fieldFold, List.foldl_cons, if_neg haf]
        exact ih _
      · rw [List.filter_cons_of_neg (by simp [hmem]), fieldFold,
          List.foldl_cons, if_neg haf]
        exact ih _

lemma ArgsT_eq {a b : ArgsT} (h1 : a.primaryArgs = b.primaryArgs)
    (h2 : a.massRatioArgs = b.massRatioArgs)
    (h3 : a.periodArgs = b.periodArgs) : a = b := by
  cases a; cases b; simp_all

lemma resolveArgs_filter (cfg : ConfigT) :
    resolveArgs cfg =
      resolveArgs (cfg.filter (fun p => decide (p.1 ∈ fields3))) := by
  refine ArgsT_eq ?_ ?_ ?_
  · rw [resolveArgs, resolveArgs, foldl_resolveStep_primary,
      foldl_resolveStep_primary]
    exact fieldFold_filter "Primary" (by decide) cfg _
  · rw [resolveArgs, resolveArgs, foldl_resolveStep_massRatio,
      foldl_resolveStep_massRatio]
    exact fieldFold_filter "MassRatio" (by decide) cfg _
  · rw [resolveArgs, resolveArgs, foldl_resolveStep_period,
      foldl_resolveStep_period]
    exact fieldFold_filter "OrbitalPeriod" (by decide) cfg _

/-- C7: the configuration merge of `Population.__init__`, for every
well-formed override mapping (unique keys, as in a Python `dict`): a non-null
sub-key value under a recognized field overwrites that entry of the field's
defaults; a null (None) sub-key value leaves the default entry unchanged;
top-level keys other than Primary, MassRatio, OrbitalPeriod have no effect on
the resolved configs (filtering them out first gives the same result); a
field absent from the override keeps its full defaults; and the merge is a
pure function, deterministic in its input. -/
theorem config_merge_semantics (cfg : ConfigT) (hwf : WFConfig cfg) :
    (∀ f ∈ fields3, ∀ ov, cfgLookup cfg f = some ov →
        (∀ k v, ovLookup ov k = some (some v) →
            dictLookup (argsField (resolveArgs cfg) f) k = some v) ∧
        (∀ k, ovLookup ov k = some none →
            dictLookup (argsField (resolveArgs cfg) f) k =
              dictLookup (defaultField f) k)) ∧
    (∀ f ∈ fields3, cfgLookup cfg f = none →
        argsField (resolveArgs cfg) f = defaultField f) ∧
    resolveArgs cfg =
      resolveArgs (cfg.filter (fun p => decide (p.1 ∈ fields3))) ∧
    (∀ cfg', cfg = cfg' → resolveArgs cfg = resolveArgs cfg') := by
  obtain ⟨hnd, hsub⟩ := hwf
  refine ⟨?_, ?_, resolveArgs_filter cfg, fun cfg' h => h ▸ rfl⟩
  · intro f hf ov hov
    have hfe := argsField_resolveArgs cfg f hf
    have hm := fieldFold_lookup f cfg (defaultField f) ov hnd hov
    have hsubnd : (ov.map Prod.fst).Nodup :=
      hsub _ (cfgLookup_mem cfg f ov hov)
    constructor
    · intro k v hk
      rw [hfe, hm, mergeField_eq_foldl]
      exact foldl_plain_lookup_some k v ov _ hsubnd hk
    · intro k hk
      rw [hfe, hm, mergeField_eq_foldl]
      exact foldl_plain_lookup_none_val k ov _ hsubnd hk
  · intro f hf h
    rw [argsField_resolveArgs cfg f hf, fieldFold_no_key f cfg _ h]

/-- A concrete override: one recognized field with a non-null and a null
sub-key, plus one unrecognized top-level key. -/
noncomputable def mergeWitnessConfig : ConfigT :=
  [("Primary", [("min_mass", some (.num 5)), ("max_mass", none)]),
   ("Junk", [("pdf", some (.str "X"))])]

/-- C7 witness: the merge semantics at the concrete override above. -/
theorem config_merge_semantics_witness :
    (∀ f ∈ fields3, ∀ ov, cfgLookup mergeWitnessConfig f = some ov →
        (∀ k v, ovLookup ov k = some (some v) →
            dictLookup (argsField (resolveArgs mergeWitnessConfig) f) k =
              some v) ∧
        (∀ k, ovLookup ov k = some none →
            dictLookup (argsField (resolveArgs mergeWitnessConfig) f) k =
              dictLookup (defaultField f) k)) ∧
    (∀ f ∈ fields3, cfgLookup mergeWitnessConfig f = none →
        argsField (resolveArgs mergeWitnessConfig) f = defaultField f) ∧
    resolveArgs mergeWitnessConfig =
      resolveArgs (mergeWitnessConfig.filter
        (fun p => decide (p.1 ∈ fields3))) ∧
    (∀ cfg', mergeWitnessConfig = cfg' →
        resolveArgs mergeWitnessConfig = resolveArgs cfg') :=
  config_merge_semantics mergeWitnessConfig ⟨by decide, by decide⟩

/-! ## TargetRegion (`src/binrates/population.py`, lines 164-253)

Shape parameters only ever pass through `+ - * /` and truncation, so they are
modelled by exact rationals; at the built-in defaults the float and the
rational computation agree (`int(1/0.2) = 5` in both). -/

/-- The `shape_kwargs` dictionary of `TargetRegion.__init__`. -/
structure ShapeKW where
  xmin : ℚ
  xmax : ℚ
  dx : ℚ
  ymin : ℚ
  ymax : ℚ
  dy : ℚ
  zmin : ℚ
  zmax : ℚ
  dz : ℚ

/-- The built-in `shape_kwargs` defaults (lines 207-217). -/
def defaultShapeKW : ShapeKW :=
  ⟨0, 1, 0.2, 0, 1, 0.2, 0, 1, 0.2⟩

/-- One iteration of the kwargs loop (lines 219-221): a key present among
the shape keys overwrites that entry, any other key is ignored. -/
def applyShapeKW (d : ShapeKW) (p : String × ℚ) : ShapeKW :=
  if p.1 = "xmin" then { d with xmin := p.2 }
  else if p.1 = "xmax" then { d with xmax := p.2 }
  else if p.1 = "dx" then { d with dx := p.2 }
  else if p.1 = "ymin" then { d with ymin := p.2 }
  else if p.1 = "ymax" then { d with ymax := p.2 }
  else if p.1 = "dy" then { d with dy := p.2 }
  else if p.1 = "zmin" then { d with zmin := p.2 }
  else if p.1 = "zmax" then { d with zmax := p.2 }
  else if p.1 = "dz" then { d with dz := p.2 }
  else d

/-- Python `int(q)`: truncation toward zero. -/
def pyTrunc (q : ℚ) : Int := if 0 ≤ q then ⌊q⌋ else -⌊-q⌋

/-- Model of `np.linspace(a, b, num)`: `num` evenly spaced points from `a`
to `b`, endpoints included (`a + i*(b-a)/(num-1)`); a single point is `a`,
and a negative `num` raises `ValueError`. -/
def np_linspace (a b : ℚ) (num : Int) : Except Err (List ℚ) :=
  if num < 0 then .error .valueError
  else .ok ((List.range num.toNat).map
    (fun i => a + i * (b - a) / ((num.toNat : ℚ) - 1)))

/-- `np.array(np.meshgrid(x, y, z)).T.reshape(-1, 3)` (line 251): the rows
enumerate index triples `(k, j, i)` lexicographically, row `(k, j, i)` being
`(x[j], y[i], z[k])` — the full Cartesian product of the three axes. -/
def meshgridT (x y z : List ℚ) : List (ℚ × ℚ × ℚ) :=
  z.flatMap (fun c => x.flatMap (fun a => y.map (fun b => (a, b, c))))

/-- `TargetRegion.generate_region_for_test` (lines 228-253): per-axis point
count `int((max - min)/step)`, then linspace per axis, then the meshgrid
product. -/
def generate_region_for_test (args : ShapeKW) :
    Except Err (List (ℚ × ℚ × ℚ)) := do
  let x ← np_linspace args.xmin args.xmax
    (pyTrunc ((args.xmax - args.xmin) / args.dx))
  let y ← np_linspace args.ymin args.ymax
    (pyTrunc ((args.ymax - args.ymin) / args.dy))
  let z ← np_linspace args.zmin args.zmax
    (pyTrunc ((args.zmax - args.zmin) / args.dz))
  return meshgridT x y z

/-- The constructed `TargetRegion` object. -/
structure TargetRegionObj where
  load_from_file : Bool
  fname : String
  make_test : Bool
  shape : String
  region : List (ℚ × ℚ × ℚ)

/-- `TargetRegion.__init__` (lines 185-226): raise when both mode flags are
false; merge kwargs into the shape defaults; with `make_test` build the test
region, otherwise the file-backed branch raises "not ready to use". -/
def targetRegionInit (load_from_file : Bool) (fname : String)
    (make_test : Bool) (shape : String) (kwargs : List (String × ℚ)) :
    Except Err TargetRegionObj :=
  if ¬ load_from_file ∧ ¬ make_test then .error .valueError
  else
    let shape_kwargs := kwargs.foldl applyShapeKW defaultShapeKW
    if make_test then
      (generate_region_for_test shape_kwargs).map
        (fun r => ⟨load_from_file, fname, make_test, shape, r⟩)
    else .error .valueError

lemma mem_meshgridT (x y z : List ℚ) (p : ℚ × ℚ × ℚ) :
    p ∈ meshgridT x y z ↔ p.1 ∈ x ∧ p.2.1 ∈ y ∧ p.2.2 ∈ z := by
  simp only [meshgridT, List.mem_flatMap, List.mem_map]
  constructor
  · rintro ⟨c, hc, a, ha, b, hb, rfl⟩
    exact ⟨ha, hb, hc⟩
  · rintro ⟨h1, h2, h3⟩
    exact ⟨p.2.2, h3, p.1, h1, p.2.1, h2, rfl⟩

/-- The default per-axis point set `np.linspace(0, 1, 5)`. -/
def gridAxis : List ℚ := [0, 1/4, 1/2, 3/4, 1]

lemma length_flatMap_const {α β : Type} (l : List α) (f : α → List β)
    (k : Nat) (h : ∀ a ∈ l, (f a).length = k) :
    (l.flatMap f).length = l.length * k := by
  induction l with
  | nil => simp
  | cons a t ih =>
    rw [List.flatMap_cons, List.length_append, h a (List.mem_cons_self a t),
      ih (fun b hb => h b (List.mem_cons_of_mem a hb)), List.length_cons]
    ring

lemma meshgridT_grid_length :
    (meshgridT gridAxis gridAxis gridAxis).length = 125 := by
  rw [meshgridT, length_flatMap_const _ _ 25]
  · rfl
  · intro c _
    rw [length_flatMap_const _ _ 5 (fun a _ => by simp [gridAxis])]
    rfl

lemma pyTrunc_default : pyTrunc ((1 - 0) / (0.2 : ℚ)) = 5 := by
  rw [pyTrunc, if_pos (by norm_num)]
  norm_num

lemma np_linspace_default : np_linspace 0 1 5 = .ok gridAxis := by
  rw [np_linspace, if_neg (by norm_num)]
  rw [show ((5 : Int).toNat) = 5 from rfl]
  rw [show List.range 5 = [0, 1, 2, 3, 4] from rfl]
  simp only [List.map, gridAxis]
  norm_num

lemma generate_region_default :
    generate_region_for_test defaultShapeKW =
      .ok (meshgridT gridAxis gridAxis gridAxis) := by
  have hx : np_linspace defaultShapeKW.xmin defaultShapeKW.xmax
      (pyTrunc ((defaultShapeKW.xmax - defaultShapeKW.xmin) /
        defaultShapeKW.dx)) = .ok gridAxis := by
    show np_linspace 0 1 (pyTrunc ((1 - 0) / (0.2 : ℚ))) = .ok gridAxis
    rw [pyTrunc_default]
    exact np_linspace_default
  rw [show generate_region_for_test defaultShapeKW =
      (np_linspace defaultShapeKW.xmin defaultShapeKW.xmax
        (pyTrunc ((defaultShapeKW.xmax - defaultShapeKW.xmin) /
          defaultShapeKW.dx))).bind (fun x =>
        (np_linspace defaultShapeKW.ymin defaultShapeKW.ymax
          (pyTrunc ((defaultShapeKW.ymax - defaultShapeKW.ymin) /
            defaultShapeKW.dy))).bind (fun y =>
          (np_linspace defaultShapeKW.zmin defaultShapeKW.zmax
            (pyTrunc ((defaultShapeKW.zmax - defaultShapeKW.zmin) /
              defaultShapeKW.dz))).bind (fun z =>
            .ok (meshgridT x y z)))) from rfl]
  have hy : np_linspace defaultShapeKW.ymin defaultShapeKW.ymax
      (pyTrunc ((defaultShapeKW.ymax - defaultShapeKW.ymin) /
        defaultShapeKW.dy)) = .ok gridAxis := hx
  have hz : np_linspace defaultShapeKW.zmin defaultShapeKW.zmax
      (pyTrunc ((defaultShapeKW.zmax - defaultShapeKW.zmin) /
        defaultShapeKW.dz)) = .ok gridAxis := hx
  rw [hx]
  simp only [Except.bind]
  rw [hy]
  simp only [Except.bind]
  rw [hz]

/-- C8: at the built-in defaults (`xmin=0, xmax=1, dx=0.2`, analogous y and
z) the per-axis point count is `int(1/0.2) = 5`, each axis is the 5 evenly
spaced points `[0, 1/4, 1/2, 3/4, 1]` spanning `[0, 1]` with both endpoints,
and the region is the full Cartesian product with exactly `125` 3D points. -/
theorem target_region_default_grid :
    pyTrunc ((1 - 0) / (0.2 : ℚ)) = 5 ∧
      np_linspace 0 1 (pyTrunc ((1 - 0) / (0.2 : ℚ))) = .ok gridAxis ∧
      gridAxis = [0, 1/4, 1/2, 3/4, 1] ∧
      ∃ r, generate_region_for_test defaultShapeKW = .ok r ∧
        r.length = 125 ∧
        (∀ p : ℚ × ℚ × ℚ, p ∈ r ↔
          p.1 ∈ gridAxis ∧ p.2.1 ∈ gridAxis ∧ p.2.2 ∈ gridAxis) := by
  refine ⟨pyTrunc_default, ?_, rfl,
    meshgridT gridAxis gridAxis gridAxis, generate_region_default,
    meshgridT_grid_length, fun p => mem_meshgridT _ _ _ p⟩
  rw [pyTrunc_default]
  exact np_linspace_default

/-- C10: constructing `TargetRegion` with both `load_from_file = True` and
`make_test = True` raises no error — the test-shape branch wins, the region
is built from the shape parameters, and the file-backed mode is silently
ignored (only the flag is stored) — while it is the neither-active
combination that the constructor rejects. -/
theorem target_region_both_modes (fname shape fname' shape' : String) :
    (∃ obj, targetRegionInit true fname true shape [] = .ok obj ∧
      obj.load_from_file = true ∧ obj.make_test = true ∧
      generate_region_for_test defaultShapeKW = .ok obj.region) ∧
    targetRegionInit false fname' false shape' [] = .error .valueError := by
  constructor
  · refine ⟨⟨true, fname, true, shape,
      meshgridT gridAxis gridAxis gridAxis⟩, ?_, rfl, rfl,
      generate_region_default⟩
    rw [show targetRegionInit true fname true shape [] =
        (generate_region_for_test defaultShapeKW).map
          (fun r => ⟨true, fname, true, shape, r⟩) from rfl,
      generate_region_default]
    rfl
  · rfl

/-! ## Kepler conversions (`src/binrates/utils/kepler.py`)

Constants from `src/binrates/utils/constants.py`; float literals are read as
exact reals (`1e0/3e0` is the exact `1/3` in the real model, `24e0 * 3600e0`
the exact day length in seconds). -/

def const_pi : ℝ := 3.1415926535897932384626433832795028841971693993751

def standard_cgrav : ℝ := 6.67428e-8

def msol : ℝ := 1.9892e33

def rsol : ℝ := 6.9598e10

def Msun : ℝ := msol

def Rsun : ℝ := rsol

noncomputable def one_third : ℝ := 1 / 3

/-- `np.square`: elementwise square. -/
def np_square (x : ℝ) : ℝ := x * x

/-- `P_to_a` (kepler.py lines 13-46): separation in Rsun from period in days
and masses in Msun, `a = (G (m1+m2) (P/2pi)^2)^(1/3)` in CGS. -/
noncomputable def P_to_a (period m1 m2 : ℝ) : ℝ :=
  let period := period * 24 * 3600
  let m1 := m1 * Msun
  let m2 := m2 * Msun
  let separation :=
    (standard_cgrav * (m1 + m2) * np_square (period / (2 * const_pi)))
      ^ one_third
  separation / Rsun

/-- `a_to_P` (kepler.py lines 49-86): period in days from separation in Rsun
and masses in Msun, `P = 2pi (a^3 / (G (m1+m2)))^(1/2)` in CGS. -/
noncomputable def a_to_P (separation m1 m2 : ℝ) : ℝ :=
  let separation := separation * Rsun
  let m1 := m1 * Msun
  let m2 := m2 * Msun
  let period :=
    (separation * separation * separation /
      (standard_cgrav * (m1 + m2))) ^ (0.5 : ℝ)
  let period := 2 * const_pi * period
  period / (24 * 3600)

/-- `a_to_f` (kepler.py lines 89-121): orbital frequency in Hz from
separation in Rsun and masses in Msun,
`f = (G (m1+m2) / a^3)^(1/2) / 2pi` in CGS. -/
noncomputable def a_to_f (separation m1 m2 : ℝ) : ℝ :=
  let separation := separation * Rsun
  let m1 := m1 * Msun
  let m2 := m2 * Msun
  (standard_cgrav * (m1 + m2) / separation ^ (3 : ℕ)) ^ (0.5 : ℝ) /
    (2 * const_pi)

lemma const_pi_pos : (0 : ℝ) < const_pi := by norm_num [const_pi]

lemma standard_cgrav_pos : (0 : ℝ) < standard_cgrav := by
  norm_num [standard_cgrav]

lemma Msun_pos : (0 : ℝ) < Msun := by norm_num [Msun, msol]

lemma Rsun_pos : (0 : ℝ) < Rsun := by norm_num [Rsun, rsol]

lemma kepler_roundtrip (P m1 m2 : ℝ) (hP : 0 < P) (h1 : 0 < m1)
    (h2 : 0 < m2) : a_to_P (P_to_a P m1 m2) m1 m2 = P := by
  have hpi := const_pi_pos
  have hG := standard_cgrav_pos
  have hMs := Msun_pos
  have hRs := Rsun_pos
  set s : ℝ := P * 24 * 3600 with hs
  have hs0 : 0 < s := by positivity
  set t : ℝ := s / (2 * const_pi) with ht
  have ht0 : 0 < t := div_pos hs0 (by positivity)
  have hM : (0 : ℝ) < m1 * Msun + m2 * Msun := by positivity
  set y : ℝ := standard_cgrav * (m1 * Msun + m2 * Msun) * np_square t
    with hy_def
  have hy : 0 < y := by
    rw [hy_def, np_square]
    positivity
  have hPa : P_to_a P m1 m2 = y ^ one_third / Rsun := rfl
  rw [hPa]
  rw [show a_to_P (y ^ one_third / Rsun) m1 m2 =
      2 * const_pi * ((y ^ one_third / Rsun * Rsun) *
        (y ^ one_third / Rsun * Rsun) * (y ^ one_third / Rsun * Rsun) /
        (standard_cgrav * (m1 * Msun + m2 * Msun))) ^ (0.5 : ℝ) /
      (24 * 3600) from rfl]
  have hsep : y ^ one_third / Rsun * Rsun = y ^ one_third := by
    field_simp
  rw [hsep]
  have hcube : y ^ one_third * y ^ one_third * y ^ one_third = y := by
    rw [one_third, ← Real.rpow_add hy, ← Real.rpow_add hy]
    have he : (1 / 3 + 1 / 3 + 1 / 3 : ℝ) = 1 := by norm_num
    rw [he, Real.rpow_one]
  rw [hcube]
  have hX : y / (standard_cgrav * (m1 * Msun + m2 * Msun)) = t * t := by
    rw [hy_def, np_square]
    field_simp
  rw [hX]
  have h05 : (0.5 : ℝ) = 1 / 2 := by norm_num
  have hsqrt : (t * t) ^ (0.5 : ℝ) = t := by
    rw [h05, show t * t = t ^ (2 : ℕ) by ring, ← Real.rpow_natCast t 2,
      ← Real.rpow_mul ht0.le]
    have he : ((2 : ℕ) : ℝ) * (1 / 2) = 1 := by norm_num
    rw [he, Real.rpow_one]
  rw [hsqrt, ht, hs]
  field_simp
  ring

lemma kepler_freq_consistency (a m1 m2 : ℝ) (ha : 0 < a) (h1 : 0 < m1)
    (h2 : 0 < m2) :
    a_to_f a m1 m2 * (a_to_P a m1 m2 * (24 * 3600)) = 1 := by
  have hpi := const_pi_pos
  have hG := standard_cgrav_pos
  have hMs := Msun_pos
  have hRs := Rsun_pos
  set A : ℝ := a * Rsun with hA_def
  have hA : 0 < A := by positivity
  have hM : (0 : ℝ) < m1 * Msun + m2 * Msun := by positivity
  have e1 : a_to_f a m1 m2 =
      (standard_cgrav * (m1 * Msun + m2 * Msun) / A ^ (3 : ℕ)) ^ (0.5 : ℝ) /
        (2 * const_pi) := rfl
  have e2 : a_to_P a m1 m2 =
      2 * const_pi * (A * A * A /
        (standard_cgrav * (m1 * Msun + m2 * Msun))) ^ (0.5 : ℝ) /
        (24 * 3600) := rfl
  rw [e1, e2]
  have h05 : (0.5 : ℝ) = 1 / 2 := by norm_num
  rw [h05]
  have hprod :
      (standard_cgrav * (m1 * Msun + m2 * Msun) / A ^ (3 : ℕ)) ^
          ((1 : ℝ) / 2) *
        (A * A * A /
          (standard_cgrav * (m1 * Msun + m2 * Msun))) ^ ((1 : ℝ) / 2) =
        1 := by
    rw [← Real.mul_rpow (by positivity) (by positivity)]
    have hone : standard_cgrav * (m1 * Msun + m2 * Msun) / A ^ (3 : ℕ) *
        (A * A * A / (standard_cgrav * (m1 * Msun + m2 * Msun))) = 1 := by
      field_simp
      ring
    rw [hone, Real.one_rpow]
  have h2pi : (2 : ℝ) * const_pi ≠ 0 := by positivity
  have hday : ((24 : ℝ) * 3600) ≠ 0 := by norm_num
  calc
    (standard_cgrav * (m1 * Msun + m2 * Msun) / A ^ (3 : ℕ)) ^
        ((1 : ℝ) / 2) / (2 * const_pi) *
      (2 * const_pi * (A * A * A /
        (standard_cgrav * (m1 * Msun + m2 * Msun))) ^ ((1 : ℝ) / 2) /
        (24 * 3600) * (24 * 3600)) =
      (standard_cgrav * (m1 * Msun + m2 * Msun) / A ^ (3 : ℕ)) ^
          ((1 : ℝ) / 2) *
        (A * A * A /
          (standard_cgrav * (m1 * Msun + m2 * Msun))) ^ ((1 : ℝ) / 2) *
        (2 * const_pi / (2 * const_pi)) * (24 * 3600 / (24 * 3600)) := by
      ring
    _ = 1 := by
      rw [div_self h2pi, div_self hday, mul_one, mul_one, hprod]

/-! Elementwise numpy array operations, for the broadcasting contract: a
binary op on two equal-shaped arrays acts index-wise (`zipWith`), an op
between an array and a scalar maps over the array. -/

def arrMul (a b : List ℝ) : List ℝ := List.zipWith (· * ·) a b

def arrAdd (a b : List ℝ) : List ℝ := List.zipWith (· + ·) a b

noncomputable def arrDiv (a b : List ℝ) : List ℝ := List.zipWith (· / ·) a b

def arrSmul (a : List ℝ) (c : ℝ) : List ℝ := a.map (· * c)

def smulArr (c : ℝ) (a : List ℝ) : List ℝ := a.map (c * ·)

noncomputable def arrDivS (a : List ℝ) (c : ℝ) : List ℝ := a.map (· / c)

noncomputable def arrPow (a : List ℝ) (e : ℝ) : List ℝ := a.map (· ^ e)

def arrPowN (a : List ℝ) (n : ℕ) : List ℝ := a.map (· ^ n)

/-- `np.square` on an array. -/
def np_square_arr (x : List ℝ) : List ℝ := arrMul x x

/-- `P_to_a` applied to equal-shaped array inputs, the source formula read
with numpy's elementwise operations. -/
noncomputable def P_to_a_arr (period m1 m2 : List ℝ) : List ℝ :=
  let period := arrSmul (arrSmul period 24) 3600
  let m1 := arrSmul m1 Msun
  let m2 := arrSmul m2 Msun
  let separation :=
    arrPow (arrMul (smulArr standard_cgrav (arrAdd m1 m2))
      (np_square_arr (arrDivS period (2 * const_pi)))) one_third
  arrDivS separation Rsun

/-- `a_to_P` on array inputs. -/
noncomputable def a_to_P_arr (separation m1 m2 : List ℝ) : List ℝ :=
  let separation := arrSmul separation Rsun
  let m1 := arrSmul m1 Msun
  let m2 := arrSmul m2 Msun
  let period :=
    arrPow (arrDiv (arrMul (arrMul separation separation) separation)
      (smulArr standard_cgrav (arrAdd m1 m2))) (0.5 : ℝ)
  let period := smulArr (2 * const_pi) period
  arrDivS period (24 * 3600)

/-- `a_to_f` on array inputs. -/
noncomputable def a_to_f_arr (separation m1 m2 : List ℝ) : List ℝ :=
  let separation := arrSmul separation Rsun
  let m1 := arrSmul m1 Msun
  let m2 := arrSmul m2 Msun
  arrDivS (arrPow (arrDiv (smulArr standard_cgrav (arrAdd m1 m2))
    (arrPowN separation 3)) (0.5 : ℝ)) (2 * const_pi)

lemma P_to_a_arr_broadcast :
    ∀ (ps m1s m2s : List ℝ), P_to_a_arr ps m1s m2s =
      (ps.zip (m1s.zip m2s)).map (fun v => P_to_a v.1 v.2.1 v.2.2) := by
  intro ps
  induction ps with
  | nil => intro m1s m2s; simp [P_to_a_arr, arrSmul, smulArr, arrAdd, arrMul, arrDivS, arrPow, np_square_arr]
  | cons p pt ih =>
    intro m1s m2s
    cases m1s with
    | nil => rfl
    | cons a at' =>
      cases m2s with
      | nil => rfl
      | cons b bt =>
        rw [show P_to_a_arr (p :: pt) (a :: at') (b :: bt) =
            P_to_a p a b :: P_to_a_arr pt at' bt from rfl, ih]
        rfl

lemma a_to_P_arr_broadcast :
    ∀ (ps m1s m2s : List ℝ), a_to_P_arr ps m1s m2s =
      (ps.zip (m1s.zip m2s)).map (fun v => a_to_P v.1 v.2.1 v.2.2) := by
  intro ps
  induction ps with
  | nil => intro m1s m2s; simp [a_to_P_arr, arrSmul, smulArr, arrAdd, arrMul, arrDiv, arrDivS, arrPow]
  | cons p pt ih =>
    intro m1s m2s
    cases m1s with
    | nil => rfl
    | cons a at' =>
      cases m2s with
      | nil => rfl
      | cons b bt =>
        rw [show a_to_P_arr (p :: pt) (a :: at') (b :: bt) =
            a_to_P p a b :: a_to_P_arr pt at' bt from rfl, ih]
        rfl

lemma a_to_f_arr_broadcast :
    ∀ (ps m1s m2s : List ℝ), a_to_f_arr ps m1s m2s =
      (ps.zip (m1s.zip m2s)).map (fun v => a_to_f v.1 v.2.1 v.2.2) := by
  intro ps
  induction ps with
  | nil => intro m1s m2s; simp [a_to_f_arr, arrSmul, smulArr, arrAdd, arrMul, arrDiv, arrDivS, arrPow, arrPowN]
  | cons p pt ih =>
    intro m1s m2s
    cases m1s with
    | nil => rfl
    | cons a at' =>
      cases m2s with
      | nil => rfl
      | cons b bt =>
        rw [show a_to_f_arr (p :: pt) (a :: at') (b :: bt) =
            a_to_f p a b :: a_to_f_arr pt at' bt from rfl, ih]
        rfl

/-- C9: for every physically valid period and masses the conversions are
exact inverses (`a_to_P (P_to_a P m1 m2) m1 m2 = P` in the real model of
float arithmetic); `a_to_f` is consistent with `a_to_P` via `f = 1/P` once
the day-valued period is expressed in seconds (`a_to_P` returns days,
`a_to_f` returns Hz, so `f * (P * 86400) = 1`); and all three conversions
broadcast over equal-shaped sequence inputs elementwise. -/
theorem kepler_roundtrip_and_broadcast (P m1 m2 a : ℝ)
    (ps m1s m2s : List ℝ) (hP : 0 < P) (h1 : 0 < m1) (h2 : 0 < m2)
    (ha : 0 < a) :
    a_to_P (P_to_a P m1 m2) m1 m2 = P ∧
      a_to_f a m1 m2 * (a_to_P a m1 m2 * (24 * 3600)) = 1 ∧
      P_to_a_arr ps m1s m2s =
        (ps.zip (m1s.zip m2s)).map (fun v => P_to_a v.1 v.2.1 v.2.2) ∧
      a_to_P_arr ps m1s m2s =
        (ps.zip (m1s.zip m2s)).map (fun v => a_to_P v.1 v.2.1 v.2.2) ∧
      a_to_f_arr ps m1s m2s =
        (ps.zip (m1s.zip m2s)).map (fun v => a_to_f v.1 v.2.1 v.2.2) :=
  ⟨kepler_roundtrip P m1 m2 hP h1 h2,
   kepler_freq_consistency a m1 m2 ha h1 h2,
   P_to_a_arr_broadcast ps m1s m2s, a_to_P_arr_broadcast ps m1s m2s,
   a_to_f_arr_broadcast ps m1s m2s⟩

/-- C9 witness: the conversions at `P = 1` day, `a = 1` Rsun and solar
masses, with singleton arrays. -/
theorem kepler_roundtrip_and_broadcast_witness :
    a_to_P (P_to_a 1 1 1) 1 1 = 1 ∧
      a_to_f 1 1 1 * (a_to_P 1 1 1 * (24 * 3600)) = 1 ∧
      P_to_a_arr [1] [1] [1] =
        (([1] : List ℝ).zip (([1] : List ℝ).zip [1])).map
          (fun v => P_to_a v.1 v.2.1 v.2.2) ∧
      a_to_P_arr [1] [1] [1] =
        (([1] : List ℝ).zip (([1] : List ℝ).zip [1])).map
          (fun v => a_to_P v.1 v.2.1 v.2.2) ∧
      a_to_f_arr [1] [1] [1] =
        (([1] : List ℝ).zip (([1] : List ℝ).zip [1])).map
          (fun v => a_to_f v.1 v.2.1 v.2.2) :=
  kepler_roundtrip_and_broadcast 1 1 1 1 [1] [1] [1] one_pos one_pos
    one_pos one_pos
